import Mathlib

/-!
Shallow embedding of the vsconan core: the environment overlay manager
(`VSConanWorkspaceEnvironment`, the richer variant with backup/restore
semantics) and the command builder, together with proofs of the spec
claims about them.

Conventions of the embedding:
- TypeScript `string | undefined` becomes `Option String`; a TS falsy
  check `!value` is true for both `undefined` and the empty string.
- The live process environment (`process.env`) and the editor's
  `environmentVariableCollection` are modelled as total functions
  `String → Option String` (a `none` result means the variable is unset).
- `context.workspaceState` is modelled by the two fields it stores:
  `vsconan.backupEnv` and `vsconan.activeEnv`.
- The `.env` mirror file is modelled by its content (`Option String`),
  together with the `isUpdateDotEnv` user setting as a boolean.
- The external extraction call (`execSync` + `JSON.parse`) is modelled by
  passing its result as an explicit parameter: `none` means the call threw.
-/

/-- Environment-variable pairs as in the TS alias `EnvVars`:
an array of `[key, value]` where the value may be `undefined` (`none`). -/
abbrev EnvVars := List (String × Option String)

/-- The enum `ConanEnv` distinguishing the two Conan environments. -/
inductive ConanEnv
  | buildEnv
  | runEnv
deriving DecidableEq

/-- Observable state of `VSConanWorkspaceEnvironment` and its collaborators. -/
structure WsState where
  /-- live `process.env` -/
  processEnv : String → Option String
  /-- the editor's `environmentVariableCollection` -/
  envCollection : String → Option String
  /-- workspace storage key `vsconan.backupEnv` -/
  backupEnv : Option EnvVars
  /-- workspace storage key `vsconan.activeEnv`: `(configName, kind, overlay)` -/
  activeEnv : Option (String × ConanEnv × List (String × String))
  /-- content of the `.env` mirror file in the workspace, if ever written -/
  dotEnv : Option String
  /-- the `isUpdateDotEnv` user setting -/
  updateDotEnv : Bool

/-- Set a variable in a functional environment. -/
def envSet (e : String → Option String) (k v : String) : String → Option String :=
  fun n => if n = k then some v else e n

/-- Delete a variable from a functional environment. -/
def envDelete (e : String → Option String) (k : String) : String → Option String :=
  fun n => if n = k then none else e n

/-- TypeScript falsiness of a `string | undefined` value: `undefined` and
the empty string are falsy. -/
def isFalsy : Option String → Bool
  | none => true
  | some s => s = ""

/-- Rendering of a `string | undefined` value inside a TS template literal:
`undefined` prints as the string "undefined". -/
def templateStr : Option String → String
  | none => "undefined"
  | some s => s

/-- Lookup in a JS `Map` built with `new Map(entries)`: the key is present
iff some entry has it, and later entries overwrite earlier ones.
Returns `some v` when the key is present with stored value `v`
(`v` itself may be `none`, as `Map.has` is true for an entry whose value
is `undefined`). -/
def mapGet (l : EnvVars) (k : String) : Option (Option String) :=
  (l.reverse.find? (fun p => p.1 = k)).map (fun p => p.2)

/-- Embedding of `updateDotEnvFile`: when the `isUpdateDotEnv` setting is on,
rewrite the `.env` file with one NAME=value line per pair. -/
def updateDotEnvFile (st : WsState) (data : EnvVars) : WsState :=
  if st.updateDotEnv = true then
    let content := String.intercalate "\n" (data.map (fun p => p.1 ++ "=" ++ templateStr p.2))
    { st with dotEnv := some content }
  else st

/-- One iteration of the `forEach` loop in `updateVSCodeEnvironment`:
a falsy value (undefined or empty) deletes the variable from both the
process environment and the editor's collection, otherwise it is set. -/
def applyEnvVar (st : WsState) (p : String × Option String) : WsState :=
  if isFalsy p.2 then
    { st with processEnv := envDelete st.processEnv p.1,
              envCollection := envDelete st.envCollection p.1 }
  else
    { st with processEnv := envSet st.processEnv p.1 (p.2.getD ""),
              envCollection := envSet st.envCollection p.1 (p.2.getD "") }

/-- Embedding of `updateVSCodeEnvironment`: apply every pair to the live
environments, then rewrite the `.env` mirror file with the same data. -/
def updateVSCodeEnvironment (st : WsState) (data : EnvVars) : WsState :=
  updateDotEnvFile (data.foldl applyEnvVar st) data

/-- Embedding of `updateBackupEnvironment`: for every name in the incoming
environment, keep the previously backed-up value when the name is already
tracked, otherwise record the name's current value in `process.env`;
the result replaces the stored backup. -/
def updateBackupEnvironment (st : WsState) (newenv : EnvVars) : WsState :=
  let backupEnv := st.backupEnv.getD []
  let newBackupEnv : EnvVars := newenv.map (fun p =>
    match mapGet backupEnv p.1 with
    | some v => (p.1, v)
    | none => (p.1, st.processEnv p.1))
  { st with backupEnv := some newBackupEnv }

/-- Embedding of `restoreEnvironment`: re-apply the stored backup when one
exists (an empty array is truthy in JS, so only `undefined` skips), rewrite
the `.env` mirror with empty content, and clear `vsconan.activeEnv`.
Note the stored backup itself is not cleared. -/
def restoreEnvironment (st : WsState) : WsState :=
  let st1 := match st.backupEnv with
    | some b => updateVSCodeEnvironment st b
    | none => st
  let st2 := updateDotEnvFile st1 []
  { st2 with activeEnv := none }

/-- Successful tail of `activateEnvironment`, after the initial restore and
a successful extraction: update the backup, apply the new environment, and
persist the active-environment marker. -/
def activateApply (st : WsState) (configName : String) (kind : ConanEnv)
    (newenv0 : List (String × String)) : WsState :=
  let newenv : EnvVars := newenv0.map (fun p => (p.1, some p.2))
  let st2 := updateBackupEnvironment st newenv
  let st3 := updateVSCodeEnvironment st2 newenv
  { st3 with activeEnv := some (configName, kind, newenv0) }

/-- Embedding of `activateEnvironment`. It first calls `restoreEnvironment`,
then performs the extraction (`readEnvFromConan`); a throwing extraction is
modelled by `extraction = none` and propagates as `Except.error` carrying
the state at the point of the throw. -/
def activateEnvironment (st : WsState) (configName : String) (kind : ConanEnv)
    (extraction : Option (List (String × String))) : Except WsState WsState :=
  let st1 := restoreEnvironment st
  match extraction with
  | none => Except.error st1
  | some newenv0 => Except.ok (activateApply st1 configName kind newenv0)

/-- JS object property assignment `obj[k] = v` on an object represented by
its ordered entry list: an existing key keeps its position and gets the new
value, a new key is appended at the end. -/
def objSet (obj : List (String × String)) (k v : String) : List (String × String) :=
  if obj.any (fun p => p.1 = k) then
    obj.map (fun p => if p.1 = k then (p.1, v) else p)
  else obj ++ [(k, v)]

/-- JS object property read `obj[k]` on an ordered entry list. -/
def objGet (obj : List (String × String)) (k : String) : Option String :=
  (obj.find? (fun p => p.1 = k)).map (fun p => p.2)

/-- Embedding of the successful path of `readEnvFromConan`: given the parsed
JSON object (as its ordered entries), the directory of the python
interpreter and the platform path delimiter, overwrite the PATH property
with the interpreter directory, the delimiter and the old PATH value
rendered as in a template literal, then take the object's entries. -/
def readEnvFromConan (parsed : List (String × String)) (interpDir delim : String) :
    List (String × String) :=
  objSet parsed "PATH" (interpDir ++ delim ++ templateStr (objGet parsed "PATH"))

/-- Embedding of the `VSConanWorkspaceEnvironment` constructor: when a
persisted `vsconan.activeEnv` marker exists, its stored overlay is
immediately re-applied via `updateVSCodeEnvironment`; otherwise nothing
happens. -/
def constructEnvironment (st : WsState) : WsState :=
  match st.activeEnv with
  | some a => updateVSCodeEnvironment st (a.2.2.map (fun p => (p.1, some p.2)))
  | none => st

/-- Modelled from the spec: the Path Resolver (§2) of the Command Builder,
absent from the provided sources. It joins a folder field under the
workspace root and normalizes separators; on already-normal POSIX inputs
(as used by the tests) normalization is the identity, so the model is the
plain join. -/
def resolve (root rel : String) : String := root ++ "/" ++ rel

/-- Modelled from the spec: the configuration variant for the
package-export subcommand, with the default field values the tests in the
repository rely on (`ConfigCommandPackageExport`). An empty string means
"field not set". -/
structure ConfigCommandPackageExport where
  conanRecipe : String := "conanfile.py"
  installFolder : String := "install"
  buildFolder : String := "build"
  packageFolder : String := "package"
  sourceFolder : String := "source"

/-- Modelled from the spec: rendering of one optional folder field (§4.1):
a non-empty field contributes a " -flag <resolved-path>" fragment, an empty
field contributes nothing. -/
def optFlag (flag root field : String) : String :=
  if field = "" then "" else " " ++ flag ++ " " ++ resolve root field

/-- Modelled from the spec: the generic Command Builder (§4.1), absent from
the provided sources. A subcommand kind is its subcommand word plus an
ordered list of (flag, field) pairs; the manifest is required, rendered
first, and an empty manifest makes the whole command `none`. -/
def buildCommandGeneric (subcmd root recipe : String)
    (fields : List (String × String)) : Option String :=
  if recipe = "" then none
  else some (fields.foldl (fun acc p => acc ++ optFlag p.1 root p.2)
    (subcmd ++ " " ++ resolve root recipe))

/-- Modelled from the spec: `buildCommandPackageExport`, instantiating the
generic builder with the fixed flag order of the package-export subcommand:
install folder, build folder, package folder, source folder, after the
manifest path (§8 concrete scenario and the tests). -/
def buildCommandPackageExport (root : String) (cfg : ConfigCommandPackageExport) :
    Option String :=
  buildCommandGeneric "export-pkg" root cfg.conanRecipe
    [("-if", cfg.installFolder), ("-bf", cfg.buildFolder),
     ("-pf", cfg.packageFolder), ("-sf", cfg.sourceFolder)]

/-- Claim-side rendering of a token list with single-space separation. -/
def renderTokens : List String → String
  | [] => ""
  | [t] => t
  | t :: ts => t ++ " " ++ renderTokens ts

/-- Claim-side token list of the optional fields: one flag/path pair per
non-empty field, in order, nothing for an empty field. -/
def flagTokens (root : String) (fields : List (String × String)) : List String :=
  (fields.filter (fun p => p.2 ≠ "")).flatMap (fun p => [p.1, resolve root p.2])

/-- Claim-side description of the snapshot computed during activation (C2):
for every name of the new overlay, the prior snapshot's value when the name
is already tracked there, else the name's current live value. -/
def snapshotSpec (prior : EnvVars) (live : String → Option String)
    (newenv : EnvVars) : EnvVars :=
  newenv.map (fun p =>
    if (mapGet prior p.1).isSome then (p.1, (mapGet prior p.1).getD none)
    else (p.1, live p.1))

/-- Net effect on a single variable of writing a `string | undefined` value
with the falsy-deletes convention: undefined and the empty string delete,
anything else sets. -/
def normVal : Option String → Option String
  | none => none
  | some s => if s = "" then none else some s

/-- Action of an `EnvVars` list on a functional environment, mirroring the
fold inside `updateVSCodeEnvironment` on the environment component alone. -/
def envApply (e : String → Option String) (data : EnvVars) : String → Option String :=
  data.foldl (fun e p =>
    if isFalsy p.2 then envDelete e p.1 else envSet e p.1 (p.2.getD "")) e

/-! Helper lemmas about the embedding. -/

theorem updateDotEnvFile_processEnv (st : WsState) (d : EnvVars) :
    (updateDotEnvFile st d).processEnv = st.processEnv := by
  unfold updateDotEnvFile; split <;> rfl

theorem updateDotEnvFile_envCollection (st : WsState) (d : EnvVars) :
    (updateDotEnvFile st d).envCollection = st.envCollection := by
  unfold updateDotEnvFile; split <;> rfl

theorem updateDotEnvFile_backupEnv (st : WsState) (d : EnvVars) :
    (updateDotEnvFile st d).backupEnv = st.backupEnv := by
  unfold updateDotEnvFile; split <;> rfl

theorem updateDotEnvFile_activeEnv (st : WsState) (d : EnvVars) :
    (updateDotEnvFile st d).activeEnv = st.activeEnv := by
  unfold updateDotEnvFile; split <;> rfl

theorem updateDotEnvFile_updateDotEnv (st : WsState) (d : EnvVars) :
    (updateDotEnvFile st d).updateDotEnv = st.updateDotEnv := by
  unfold updateDotEnvFile; split <;> rfl

theorem foldl_applyEnvVar_processEnv (data : EnvVars) : ∀ st : WsState,
    (data.foldl applyEnvVar st).processEnv = envApply st.processEnv data := by
  induction data with
  | nil => intro st; rfl
  | cons p rest ih =>
    intro st
    show ((rest.foldl applyEnvVar (applyEnvVar st p))).processEnv = _
    rw [ih]
    unfold applyEnvVar envApply
    split <;> rename_i h <;> simp [h]

theorem foldl_applyEnvVar_envCollection (data : EnvVars) : ∀ st : WsState,
    (data.foldl applyEnvVar st).envCollection = envApply st.envCollection data := by
  induction data with
  | nil => intro st; rfl
  | cons p rest ih =>
    intro st
    show ((rest.foldl applyEnvVar (applyEnvVar st p))).envCollection = _
    rw [ih]
    unfold applyEnvVar envApply
    split <;> rename_i h <;> simp [h]

theorem foldl_applyEnvVar_backupEnv (data : EnvVars) : ∀ st : WsState,
    (data.foldl applyEnvVar st).backupEnv = st.backupEnv := by
  induction data with
  | nil => intro st; rfl
  | cons p rest ih =>
    intro st
    show ((rest.foldl applyEnvVar (applyEnvVar st p))).backupEnv = _
    rw [ih]
    unfold applyEnvVar
    split <;> rfl

theorem foldl_applyEnvVar_activeEnv (data : EnvVars) : ∀ st : WsState,
    (data.foldl applyEnvVar st).activeEnv = st.activeEnv := by
  induction data with
  | nil => intro st; rfl
  | cons p rest ih =>
    intro st
    show ((rest.foldl applyEnvVar (applyEnvVar st p))).activeEnv = _
    rw [ih]
    unfold applyEnvVar
    split <;> rfl

theorem foldl_applyEnvVar_dotEnv (data : EnvVars) : ∀ st : WsState,
    (data.foldl applyEnvVar st).dotEnv = st.dotEnv := by
  induction data with
  | nil => intro st; rfl
  | cons p rest ih =>
    intro st
    show ((rest.foldl applyEnvVar (applyEnvVar st p))).dotEnv = _
    rw [ih]
    unfold applyEnvVar
    split <;> rfl

theorem foldl_applyEnvVar_updateDotEnv (data : EnvVars) : ∀ st : WsState,
    (data.foldl applyEnvVar st).updateDotEnv = st.updateDotEnv := by
  induction data with
  | nil => intro st; rfl
  | cons p rest ih =>
    intro st
    show ((rest.foldl applyEnvVar (applyEnvVar st p))).updateDotEnv = _
    rw [ih]
    unfold applyEnvVar
    split <;> rfl

theorem updateVSCodeEnvironment_processEnv (st : WsState) (d : EnvVars) :
    (updateVSCodeEnvironment st d).processEnv = envApply st.processEnv d := by
  unfold updateVSCodeEnvironment
  rw [updateDotEnvFile_processEnv, foldl_applyEnvVar_processEnv]

theorem updateVSCodeEnvironment_envCollection (st : WsState) (d : EnvVars) :
    (updateVSCodeEnvironment st d).envCollection = envApply st.envCollection d := by
  unfold updateVSCodeEnvironment
  rw [updateDotEnvFile_envCollection, foldl_applyEnvVar_envCollection]

theorem updateVSCodeEnvironment_backupEnv (st : WsState) (d : EnvVars) :
    (updateVSCodeEnvironment st d).backupEnv = st.backupEnv := by
  unfold updateVSCodeEnvironment
  rw [updateDotEnvFile_backupEnv, foldl_applyEnvVar_backupEnv]

theorem updateVSCodeEnvironment_activeEnv (st : WsState) (d : EnvVars) :
    (updateVSCodeEnvironment st d).activeEnv = st.activeEnv := by
  unfold updateVSCodeEnvironment
  rw [updateDotEnvFile_activeEnv, foldl_applyEnvVar_activeEnv]

theorem updateVSCodeEnvironment_updateDotEnv (st : WsState) (d : EnvVars) :
    (updateVSCodeEnvironment st d).updateDotEnv = st.updateDotEnv := by
  unfold updateVSCodeEnvironment
  rw [updateDotEnvFile_updateDotEnv, foldl_applyEnvVar_updateDotEnv]

theorem envApply_not_mem (data : EnvVars) : ∀ (e : String → Option String) (n : String),
    n ∉ data.map (fun p => p.1) → envApply e data n = e n := by
  induction data with
  | nil => intro e n _; rfl
  | cons p rest ih =>
    intro e n hn
    simp only [List.map_cons, List.mem_cons, not_or] at hn
    show envApply (if isFalsy p.2 then envDelete e p.1 else envSet e p.1 (p.2.getD "")) rest n = e n
    rw [ih _ n hn.2]
    unfold envDelete envSet
    split <;> simp [hn.1]

theorem envApply_determined (f : String → Option String) (data : EnvVars) :
    ∀ (e : String → Option String) (n : String),
    (∀ p ∈ data, p.2 = f p.1) →
    envApply e data n =
      if n ∈ data.map (fun p => p.1) then normVal (f n) else e n := by
  induction data with
  | nil => intro e n _; simp [envApply]
  | cons p rest ih =>
    intro e n hf
    have hp : p.2 = f p.1 := hf p (List.mem_cons_self p rest)
    have hrest : ∀ q ∈ rest, q.2 = f q.1 := fun q hq => hf q (List.mem_cons_of_mem p hq)
    show envApply (if isFalsy p.2 then envDelete e p.1 else envSet e p.1 (p.2.getD "")) rest n = _
    rw [ih _ n hrest]
    by_cases hmem : n ∈ rest.map (fun q => q.1)
    · simp [hmem]
    · simp only [hmem, if_false, List.map_cons, List.mem_cons]
      by_cases hk : n = p.1
      · subst hk
        simp only [true_or, if_true]
        rw [hp]
        unfold envDelete envSet normVal
        cases hfn : f p.1 with
        | none => simp [isFalsy, hfn]
        | some s =>
          by_cases hs : s = ""
          · simp [isFalsy, hfn, hs]
          · simp [isFalsy, hfn, hs]
      · simp only [hk, false_or, hmem, if_false]
        unfold envDelete envSet
        split <;> simp [hk]

theorem mapGet_determined (f : String → Option String) (b : EnvVars) (k : String)
    (hf : ∀ p ∈ b, p.2 = f p.1) :
    mapGet b k = if k ∈ b.map (fun p => p.1) then some (f k) else none := by
  unfold mapGet
  by_cases hmem : k ∈ b.map (fun p => p.1)
  · simp only [hmem, if_true]
    have hex : (b.reverse.find? (fun p => p.1 = k)).isSome := by
      rw [List.find?_isSome]
      simp only [List.map] at hmem
      rcases List.mem_map.mp hmem with ⟨p, hp, hpk⟩
      exact ⟨p, List.mem_reverse.mpr hp, by simp [hpk]⟩
    rcases Option.isSome_iff_exists.mp hex with ⟨p, hp⟩
    have hpk : p.1 = k := by simpa using List.find?_some hp
    have hpb : p ∈ b := List.mem_reverse.mp (List.mem_of_find?_eq_some hp)
    rw [hp]
    simp [hf p hpb, hpk]
  · simp only [hmem, if_false]
    have : b.reverse.find? (fun p => p.1 = k) = none := by
      rw [List.find?_eq_none]
      intro p hp
      simp only [decide_eq_true_eq]
      intro hpk
      exact hmem (List.mem_map.mpr ⟨p, List.mem_reverse.mp hp, hpk⟩)
    rw [this]
    rfl

theorem updateBackupEnvironment_processEnv (st : WsState) (newenv : EnvVars) :
    (updateBackupEnvironment st newenv).processEnv = st.processEnv := rfl

theorem updateBackupEnvironment_envCollection (st : WsState) (newenv : EnvVars) :
    (updateBackupEnvironment st newenv).envCollection = st.envCollection := rfl

theorem updateBackupEnvironment_activeEnv (st : WsState) (newenv : EnvVars) :
    (updateBackupEnvironment st newenv).activeEnv = st.activeEnv := rfl

theorem updateBackupEnvironment_dotEnv (st : WsState) (newenv : EnvVars) :
    (updateBackupEnvironment st newenv).dotEnv = st.dotEnv := rfl

theorem updateBackupEnvironment_updateDotEnv (st : WsState) (newenv : EnvVars) :
    (updateBackupEnvironment st newenv).updateDotEnv = st.updateDotEnv := rfl

theorem updateBackupEnvironment_backupEnv (st : WsState) (newenv : EnvVars) :
    (updateBackupEnvironment st newenv).backupEnv =
      some (newenv.map (fun p =>
        match mapGet (st.backupEnv.getD []) p.1 with
        | some v => (p.1, v)
        | none => (p.1, st.processEnv p.1))) := rfl

theorem restoreEnvironment_activeEnv (st : WsState) :
    (restoreEnvironment st).activeEnv = none := rfl

theorem restoreEnvironment_backupEnv (st : WsState) :
    (restoreEnvironment st).backupEnv = st.backupEnv := by
  unfold restoreEnvironment
  rw [updateDotEnvFile_backupEnv]
  cases hb : st.backupEnv with
  | none => exact hb
  | some b => rw [updateVSCodeEnvironment_backupEnv]; exact hb

theorem restoreEnvironment_processEnv (st : WsState) :
    (restoreEnvironment st).processEnv =
      match st.backupEnv with
      | some b => envApply st.processEnv b
      | none => st.processEnv := by
  unfold restoreEnvironment
  rw [updateDotEnvFile_processEnv]
  cases hb : st.backupEnv with
  | none => rfl
  | some b => exact updateVSCodeEnvironment_processEnv st b

theorem restoreEnvironment_envCollection (st : WsState) :
    (restoreEnvironment st).envCollection =
      match st.backupEnv with
      | some b => envApply st.envCollection b
      | none => st.envCollection := by
  unfold restoreEnvironment
  rw [updateDotEnvFile_envCollection]
  cases hb : st.backupEnv with
  | none => rfl
  | some b => exact updateVSCodeEnvironment_envCollection st b

theorem restoreEnvironment_updateDotEnv (st : WsState) :
    (restoreEnvironment st).updateDotEnv = st.updateDotEnv := by
  unfold restoreEnvironment
  rw [updateDotEnvFile_updateDotEnv]
  cases hb : st.backupEnv with
  | none => rfl
  | some b => exact updateVSCodeEnvironment_updateDotEnv st b

theorem mapGet_nil (k : String) : mapGet [] k = none := rfl

theorem normVal_eq_of_ne (v : Option String) (h : v ≠ some "") : normVal v = v := by
  cases v with
  | none => rfl
  | some s =>
    show (if s = "" then none else some s) = some s
    rw [if_neg]
    intro hs
    exact h (by rw [hs])

theorem keys_coerce (l : List (String × String)) :
    (l.map (fun p => (p.1, some p.2))).map (fun p => p.1) = l.map (fun p => p.1) := by
  rw [List.map_map]; rfl

theorem activateApply_processEnv (st : WsState) (c : String) (k : ConanEnv)
    (l : List (String × String)) :
    (activateApply st c k l).processEnv =
      envApply st.processEnv (l.map (fun p => (p.1, some p.2))) := by
  show (updateVSCodeEnvironment (updateBackupEnvironment st (l.map (fun p => (p.1, some p.2))))
      (l.map (fun p => (p.1, some p.2)))).processEnv = _
  rw [updateVSCodeEnvironment_processEnv, updateBackupEnvironment_processEnv]

theorem activateApply_backupEnv (st : WsState) (c : String) (k : ConanEnv)
    (l : List (String × String)) :
    (activateApply st c k l).backupEnv =
      some ((l.map (fun p => (p.1, some p.2))).map (fun p =>
        match mapGet (st.backupEnv.getD []) p.1 with
        | some v => (p.1, v)
        | none => (p.1, st.processEnv p.1))) := by
  show (updateVSCodeEnvironment (updateBackupEnvironment st (l.map (fun p => (p.1, some p.2))))
      (l.map (fun p => (p.1, some p.2)))).backupEnv = _
  rw [updateVSCodeEnvironment_backupEnv, updateBackupEnvironment_backupEnv]

theorem restore_clean_processEnv (st : WsState) (hB : st.backupEnv = none) :
    (restoreEnvironment st).processEnv = st.processEnv := by
  rw [restoreEnvironment_processEnv, hB]

theorem restore_clean_backupEnv (st : WsState) (hB : st.backupEnv = none) :
    (restoreEnvironment st).backupEnv = none := by
  rw [restoreEnvironment_backupEnv, hB]

theorem restore_processEnv_determined (st1 : WsState) (f : String → Option String)
    (B1 : EnvVars) (h1 : st1.backupEnv = some B1) (hf : ∀ p ∈ B1, p.2 = f p.1)
    (n : String) :
    (restoreEnvironment st1).processEnv n =
      if n ∈ B1.map (fun p => p.1) then normVal (f n) else st1.processEnv n := by
  have hrp : (restoreEnvironment st1).processEnv = envApply st1.processEnv B1 := by
    rw [restoreEnvironment_processEnv, h1]
  rw [hrp]
  exact envApply_determined f B1 st1.processEnv n hf

theorem firstBackup (st : WsState) (hB : st.backupEnv = none) (c : String) (k : ConanEnv)
    (A : List (String × String)) :
    (activateApply (restoreEnvironment st) c k A).backupEnv =
      some (A.map (fun p => (p.1, st.processEnv p.1))) := by
  rw [activateApply_backupEnv, restore_clean_backupEnv st hB, restore_clean_processEnv st hB]
  simp only [Option.getD_none, mapGet_nil, List.map_map]
  rfl

theorem firstProcessEnv (st : WsState) (hB : st.backupEnv = none) (c : String) (k : ConanEnv)
    (A : List (String × String)) :
    (activateApply (restoreEnvironment st) c k A).processEnv =
      envApply st.processEnv (A.map (fun p => (p.1, some p.2))) := by
  rw [activateApply_processEnv, restore_clean_processEnv st hB]

theorem secondBackup (st1 : WsState) (f : String → Option String) (B1 : EnvVars)
    (h1 : st1.backupEnv = some B1) (hf : ∀ p ∈ B1, p.2 = f p.1)
    (hout : ∀ n, n ∉ B1.map (fun p => p.1) → st1.processEnv n = f n)
    (c : String) (k : ConanEnv) (Bl : List (String × String)) :
    (activateApply (restoreEnvironment st1) c k Bl).backupEnv =
      some (Bl.map (fun p => (p.1, f p.1))) := by
  rw [activateApply_backupEnv]
  have hrb : (restoreEnvironment st1).backupEnv = some B1 := by
    rw [restoreEnvironment_backupEnv, h1]
  have hrp : (restoreEnvironment st1).processEnv = envApply st1.processEnv B1 := by
    rw [restoreEnvironment_processEnv, h1]
  rw [hrb, hrp]
  simp only [Option.getD_some, List.map_map]
  congr 1
  apply List.map_congr_left
  intro p _
  simp only [Function.comp]
  rw [mapGet_determined f B1 p.1 hf]
  by_cases hmem : p.1 ∈ B1.map (fun q => q.1)
  · simp [hmem]
  · simp only [hmem, if_false]
    rw [envApply_not_mem B1 st1.processEnv p.1 hmem, hout p.1 hmem]

theorem restore_inactive_noop (st : WsState) (h1 : st.backupEnv = none)
    (h2 : st.activeEnv = none) (h3 : st.updateDotEnv = false) :
    restoreEnvironment st = st := by
  obtain ⟨pe, ec, be, ae, de, ud⟩ := st
  change be = none at h1
  change ae = none at h2
  change ud = false at h3
  subst h1; subst h2; subst h3
  rfl

/-! Claim theorems. -/

/-- C2: during activate, the persisted snapshot maps exactly the variable
names present in the new overlay; for each such name it records the prior
snapshot's value when the name was already tracked there, and otherwise the
name's current value in the live process environment. -/
theorem claim_C2_snapshot (st : WsState) (newenv : EnvVars) :
    (updateBackupEnvironment st newenv).backupEnv =
      some (snapshotSpec (st.backupEnv.getD []) st.processEnv newenv) := by
  rw [updateBackupEnvironment_backupEnv]
  unfold snapshotSpec
  congr 1
  apply List.map_congr_left
  intro p _
  cases h : mapGet (st.backupEnv.getD []) p.1 <;> simp [h]

/-- C9: applying a pair whose value is the empty string is the same as
applying a pair whose value is absent; in both cases the variable is
deleted from the process environment and from the editor's environment
collection, not set to the empty string. -/
theorem claim_C9_empty_deletes (st : WsState) (k : String) :
    applyEnvVar st (k, some "") = applyEnvVar st (k, none) ∧
    (applyEnvVar st (k, some "")).processEnv k = none ∧
    (applyEnvVar st (k, some "")).envCollection k = none := by
  refine ⟨?_, ?_, ?_⟩
  · simp [applyEnvVar, isFalsy]
  · simp [applyEnvVar, isFalsy, envDelete]
  · simp [applyEnvVar, isFalsy, envDelete]

/-- C10: on construction, if a persisted active-environment marker exists,
the stored overlay is immediately re-applied to the live environment (and
mirrored) via `updateVSCodeEnvironment`; if no marker exists, construction
mutates nothing. -/
theorem claim_C10_constructor (st : WsState) :
    (∀ cfg kind overlay, st.activeEnv = some (cfg, kind, overlay) →
      constructEnvironment st =
        updateVSCodeEnvironment st (overlay.map (fun p => (p.1, some p.2)))) ∧
    (st.activeEnv = none → constructEnvironment st = st) := by
  constructor
  · intro cfg kind overlay h
    unfold constructEnvironment
    rw [h]
  · intro h
    unfold constructEnvironment
    rw [h]

/-- Concrete state with a persisted marker for the C10 witness. -/
def stC10a : WsState :=
  { processEnv := fun _ => none, envCollection := fun _ => none,
    backupEnv := none, activeEnv := some ("cfg", ConanEnv.buildEnv, [("X", "1")]),
    dotEnv := none, updateDotEnv := false }

/-- Concrete marker-free state for the C10 witness. -/
def stC10b : WsState :=
  { processEnv := fun _ => none, envCollection := fun _ => none,
    backupEnv := none, activeEnv := none,
    dotEnv := none, updateDotEnv := false }

/-- Witness for C10 at concrete states with and without a marker. -/
theorem claim_C10_constructor_witness :
    constructEnvironment stC10a = updateVSCodeEnvironment stC10a [("X", some "1")] ∧
    constructEnvironment stC10b = stC10b :=
  ⟨(claim_C10_constructor stC10a).1 "cfg" ConanEnv.buildEnv [("X", "1")] rfl,
   (claim_C10_constructor stC10b).2 rfl⟩

/-- C4 (reason: the Command Builder is absent from the provided sources and
is modelled from the spec): the built command is `none` exactly when the
required manifest (recipe) field is the empty string, regardless of every
other field; being a total function, the builder raises no exception. -/
theorem claim_C4_missing_recipe (root : String) (cfg : ConfigCommandPackageExport) :
    buildCommandPackageExport root cfg = none ↔ cfg.conanRecipe = "" := by
  unfold buildCommandPackageExport buildCommandGeneric
  split <;> simp_all

/-- Concrete Inactive state whose mirror file holds some old content,
refuting C6 as stated. -/
def stC6cex : WsState :=
  { processEnv := fun _ => none, envCollection := fun _ => none,
    backupEnv := none, activeEnv := none,
    dotEnv := some "OLD=1", updateDotEnv := true }

/-- C6 counterexample: on an Inactive state (no snapshot, no marker) with
the mirror setting enabled, `restore()` is not a no-op: it rewrites the
mirror file to empty content. -/
theorem claim_C6_counterexample :
    stC6cex.backupEnv = none ∧ stC6cex.activeEnv = none ∧
    stC6cex.dotEnv = some "OLD=1" ∧
    (restoreEnvironment stC6cex).dotEnv = some "" :=
  ⟨rfl, rfl, rfl, rfl⟩

/-- C6 amended: `restore()` on an Inactive state mutates no environment
variable (process environment and editor collection unchanged) and leaves
the persisted store unchanged; it is a complete no-op when the mirror
setting is off, but with the mirror setting on it still rewrites the mirror
file to empty content. -/
theorem claim_C6_amended (st : WsState) (h1 : st.backupEnv = none)
    (h2 : st.activeEnv = none) :
    (restoreEnvironment st).processEnv = st.processEnv ∧
    (restoreEnvironment st).envCollection = st.envCollection ∧
    (restoreEnvironment st).backupEnv = st.backupEnv ∧
    (restoreEnvironment st).activeEnv = st.activeEnv ∧
    (st.updateDotEnv = false → restoreEnvironment st = st) ∧
    (st.updateDotEnv = true → (restoreEnvironment st).dotEnv = some "") := by
  refine ⟨?_, ?_, ?_, ?_, ?_, ?_⟩
  · rw [restoreEnvironment_processEnv, h1]
  · rw [restoreEnvironment_envCollection, h1]
  · rw [restoreEnvironment_backupEnv]
  · rw [restoreEnvironment_activeEnv, h2]
  · intro h3
    exact restore_inactive_noop st h1 h2 h3
  · intro h3
    obtain ⟨pe, ec, be, ae, de, ud⟩ := st
    change be = none at h1
    change ud = true at h3
    subst h1; subst h3
    rfl

/-- Concrete Inactive state with the mirror setting off for the C6 witness. -/
def stC6w : WsState :=
  { processEnv := fun n => if n = "X" then some "1" else none,
    envCollection := fun _ => none,
    backupEnv := none, activeEnv := none,
    dotEnv := none, updateDotEnv := false }

/-- Witness for the amended C6 at a concrete Inactive state. -/
theorem claim_C6_amended_witness :
    (restoreEnvironment stC6w).processEnv = stC6w.processEnv ∧
    (restoreEnvironment stC6w).envCollection = stC6w.envCollection ∧
    (restoreEnvironment stC6w).backupEnv = stC6w.backupEnv ∧
    (restoreEnvironment stC6w).activeEnv = stC6w.activeEnv ∧
    (stC6w.updateDotEnv = false → restoreEnvironment stC6w = stC6w) ∧
    (stC6w.updateDotEnv = true → (restoreEnvironment stC6w).dotEnv = some "") :=
  claim_C6_amended stC6w rfl rfl

/-- Concrete Active state for the C7 counterexample. -/
def stC7cex : WsState :=
  { processEnv := fun n => if n = "X" then some "new" else none,
    envCollection := fun _ => none,
    backupEnv := some [("X", some "old")],
    activeEnv := some ("cfg", ConanEnv.buildEnv, [("X", "new")]),
    dotEnv := none, updateDotEnv := false }

/-- C7 counterexample: restoring from an Active state clears the marker but
does not clear the persisted snapshot, which remains stored afterwards. -/
theorem claim_C7_counterexample :
    stC7cex.backupEnv = some [("X", some "old")] ∧
    stC7cex.activeEnv = some ("cfg", ConanEnv.buildEnv, [("X", "new")]) ∧
    ¬((restoreEnvironment stC7cex).backupEnv = none) := by
  refine ⟨rfl, rfl, ?_⟩
  rw [restoreEnvironment_backupEnv]
  simp [stC7cex]

/-- C7 amended: every `restore()` from the Active state re-applies the
snapshot to the live environment and clears the active-environment marker,
but the persisted snapshot itself is not cleared: it stays in the store
unchanged (it is only ever overwritten by the next activation). -/
theorem claim_C7_amended (st : WsState) (b : EnvVars) (h : st.backupEnv = some b)
    (m : String × ConanEnv × List (String × String)) (_hm : st.activeEnv = some m) :
    (restoreEnvironment st).activeEnv = none ∧
    (restoreEnvironment st).backupEnv = some b ∧
    (restoreEnvironment st).processEnv = envApply st.processEnv b := by
  refine ⟨restoreEnvironment_activeEnv st, ?_, ?_⟩
  · rw [restoreEnvironment_backupEnv, h]
  · rw [restoreEnvironment_processEnv, h]

/-- Concrete Active state for the C7 witness. -/
def stC7w : WsState :=
  { processEnv := fun n => if n = "Y" then some "cur" else none,
    envCollection := fun _ => none,
    backupEnv := some [("Y", some "prev")],
    activeEnv := some ("w", ConanEnv.runEnv, [("Y", "cur")]),
    dotEnv := none, updateDotEnv := false }

/-- Witness for the amended C7 at a concrete Active state. -/
theorem claim_C7_amended_witness :
    (restoreEnvironment stC7w).activeEnv = none ∧
    (restoreEnvironment stC7w).backupEnv = some [("Y", some "prev")] ∧
    (restoreEnvironment stC7w).processEnv = envApply stC7w.processEnv [("Y", some "prev")] :=
  claim_C7_amended stC7w [("Y", some "prev")] rfl ("w", ConanEnv.runEnv, [("Y", "cur")]) rfl

/-- Concrete Active state for the C5 counterexample. -/
def stC5cex : WsState :=
  { processEnv := fun n => if n = "X" then some "new" else none,
    envCollection := fun _ => none,
    backupEnv := some [("X", some "old")],
    activeEnv := some ("cfg", ConanEnv.buildEnv, [("X", "new")]),
    dotEnv := none, updateDotEnv := false }

/-- C5 counterexample: `activate` performs its initial restoration before
the extraction result is known, so a failing extraction still leaves the
live environment mutated (here the backup value was re-applied) and the
marker cleared. -/
theorem claim_C5_counterexample :
    activateEnvironment stC5cex "cfg" ConanEnv.buildEnv none =
      Except.error (restoreEnvironment stC5cex) ∧
    stC5cex.processEnv "X" = some "new" ∧
    (restoreEnvironment stC5cex).processEnv "X" = some "old" ∧
    stC5cex.activeEnv.isSome = true ∧
    (restoreEnvironment stC5cex).activeEnv = none :=
  ⟨rfl, rfl, rfl, rfl, rfl⟩

/-- C5 amended: when the extraction fails, `activate` propagates the error;
the only mutation already performed is the initial restoration, so the state
at the point of failure is exactly `restoreEnvironment` of the pre-state: no
snapshot update, no overlay application and no marker persist of the new
activation occur. In particular, from an Inactive state with the mirror
setting off, a failing `activate` mutates nothing at all. -/
theorem claim_C5_amended (st : WsState) (cfg : String) (kind : ConanEnv)
    (h1 : st.backupEnv = none) (h2 : st.activeEnv = none)
    (h3 : st.updateDotEnv = false) :
    activateEnvironment st cfg kind none = Except.error (restoreEnvironment st) ∧
    activateEnvironment st cfg kind none = Except.error st := by
  constructor
  · rfl
  · show Except.error (restoreEnvironment st) = Except.error st
    rw [restore_inactive_noop st h1 h2 h3]

/-- Concrete Inactive state for the C5 witness. -/
def stC5w : WsState :=
  { processEnv := fun _ => none, envCollection := fun _ => none,
    backupEnv := none, activeEnv := none,
    dotEnv := none, updateDotEnv := false }

/-- Witness for the amended C5 at a concrete Inactive state. -/
theorem claim_C5_amended_witness :
    activateEnvironment stC5w "cfg" ConanEnv.runEnv none =
      Except.error (restoreEnvironment stC5w) ∧
    activateEnvironment stC5w "cfg" ConanEnv.runEnv none = Except.error stC5w :=
  claim_C5_amended stC5w "cfg" ConanEnv.runEnv rfl rfl rfl

/-- C8: for a successful extraction whose parsed JSON object carries a PATH
entry, the overlay equals the parsed entries except that the PATH entry's
value becomes the interpreter's directory, then the platform path
delimiter, then the parsed PATH value; all other entries are unchanged. -/
theorem claim_C8_path_prepend (parsed : List (String × String))
    (interpDir delim pv : String) (hp : objGet parsed "PATH" = some pv) :
    readEnvFromConan parsed interpDir delim =
      parsed.map (fun p =>
        if p.1 = "PATH" then (p.1, interpDir ++ delim ++ pv) else p) := by
  unfold readEnvFromConan objSet
  have hf : (parsed.find? (fun p => p.1 = "PATH")).isSome := by
    unfold objGet at hp
    cases hfind : parsed.find? (fun p => p.1 = "PATH") with
    | none => rw [hfind] at hp; simp at hp
    | some q => simp
  have hany : parsed.any (fun p => p.1 = "PATH") = true := by
    rw [List.any_eq_true]
    rcases Option.isSome_iff_exists.mp hf with ⟨q, hq⟩
    exact ⟨q, List.mem_of_find?_eq_some hq, by simpa using List.find?_some hq⟩
  rw [if_pos hany]
  have hts : templateStr (objGet parsed "PATH") = pv := by rw [hp]; rfl
  rw [hts]

/-- Witness for C8 at a concrete parsed object carrying a PATH entry. -/
theorem claim_C8_path_prepend_witness :
    readEnvFromConan [("FOO", "1"), ("PATH", "/p")] "/py" ":" =
      [("FOO", "1"), ("PATH", "/py:/p")] :=
  (claim_C8_path_prepend [("FOO", "1"), ("PATH", "/p")] "/py" ":" "/p" rfl).trans
    (by decide)

theorem renderTokens_cons_cons (a b : String) (l : List String) :
    renderTokens (a :: b :: l) = a ++ " " ++ renderTokens (b :: l) := rfl

theorem renderTokens_glue (a b : String) (l : List String) :
    renderTokens ((a ++ " " ++ b) :: l) = a ++ " " ++ renderTokens (b :: l) := by
  cases l with
  | nil => rfl
  | cons c cs =>
    show (a ++ " " ++ b) ++ " " ++ renderTokens (c :: cs) =
      a ++ " " ++ (b ++ " " ++ renderTokens (c :: cs))
    simp [String.append_assoc]

theorem flagTokens_cons (root : String) (p : String × String)
    (rest : List (String × String)) :
    flagTokens root (p :: rest) =
      if p.2 = "" then flagTokens root rest
      else p.1 :: resolve root p.2 :: flagTokens root rest := by
  unfold flagTokens
  by_cases hp : p.2 = "" <;> simp [hp, List.filter_cons]

theorem foldl_optFlag (root : String) (fields : List (String × String)) :
    ∀ pre : String,
      fields.foldl (fun acc p => acc ++ optFlag p.1 root p.2) pre =
        renderTokens (pre :: flagTokens root fields) := by
  induction fields with
  | nil => intro pre; rfl
  | cons p rest ih =>
    intro pre
    show rest.foldl (fun acc p => acc ++ optFlag p.1 root p.2)
      (pre ++ optFlag p.1 root p.2) = _
    rw [ih, flagTokens_cons]
    by_cases hp : p.2 = ""
    · rw [if_pos hp]
      unfold optFlag
      rw [if_pos hp, String.append_empty]
    · rw [if_neg hp]
      unfold optFlag
      rw [if_neg hp]
      show renderTokens ((pre ++ (" " ++ p.1 ++ " " ++ resolve root p.2)) :: flagTokens root rest) = _
      have h1 : pre ++ (" " ++ p.1 ++ " " ++ resolve root p.2) =
          (pre ++ " " ++ p.1) ++ " " ++ resolve root p.2 := by
        simp [String.append_assoc]
      rw [h1, renderTokens_glue, renderTokens_cons_cons, renderTokens_cons_cons]
      simp [String.append_assoc]

/-- C3 (reason: the Command Builder is absent from the provided sources and
is modelled from the spec): for every subcommand kind, represented by its
subcommand word and its fixed ordered list of (flag, field) pairs, and for
every combination of optional fields being empty or non-empty, the built
command line is the single-space-separated token sequence consisting of the
subcommand word, the resolved manifest path, and one flag/resolved-path
pair per non-empty field, in the fixed order, with nothing for an empty
field; the package-export builder instantiates this with the order
install folder, build folder, package folder, source folder after the
manifest path. -/
theorem claim_C3_flag_rendering :
    (∀ subcmd root recipe fields, recipe ≠ "" →
      buildCommandGeneric subcmd root recipe fields =
        some (renderTokens (subcmd :: resolve root recipe :: flagTokens root fields))) ∧
    (∀ root cfg, buildCommandPackageExport root cfg =
      buildCommandGeneric "export-pkg" root cfg.conanRecipe
        [("-if", cfg.installFolder), ("-bf", cfg.buildFolder),
         ("-pf", cfg.packageFolder), ("-sf", cfg.sourceFolder)]) := by
  constructor
  · intro subcmd root recipe fields hr
    unfold buildCommandGeneric
    rw [if_neg hr, foldl_optFlag]
    rw [renderTokens_glue, renderTokens_cons_cons]
  · intro root cfg
    rfl

/-- Witness for C3: the spec's concrete package-export scenario, with all
fields at their defaults and with the install folder cleared. -/
theorem claim_C3_flag_rendering_witness :
    buildCommandPackageExport "/home/user/ws" {} =
      some ("export-pkg /home/user/ws/conanfile.py -if /home/user/ws/install" ++
        " -bf /home/user/ws/build -pf /home/user/ws/package -sf /home/user/ws/source") ∧
    buildCommandPackageExport "/home/user/ws" { installFolder := "" } =
      some ("export-pkg /home/user/ws/conanfile.py" ++
        " -bf /home/user/ws/build -pf /home/user/ws/package -sf /home/user/ws/source") := by
  constructor
  · refine (claim_C3_flag_rendering.2 "/home/user/ws" {}).trans ?_
    rw [claim_C3_flag_rendering.1 "export-pkg" "/home/user/ws" "conanfile.py" _ (by decide)]
    decide
  · refine (claim_C3_flag_rendering.2 "/home/user/ws" { installFolder := "" }).trans ?_
    rw [claim_C3_flag_rendering.1 "export-pkg" "/home/user/ws" "conanfile.py" _ (by decide)]
    decide

/-- Concrete initial state whose variable X holds the empty string,
refuting C1 as stated. -/
def stC1cex : WsState :=
  { processEnv := fun n => if n = "X" then some "" else none,
    envCollection := fun _ => none,
    backupEnv := none, activeEnv := none,
    dotEnv := none, updateDotEnv := false }

/-- Intermediate state of the C1 counterexample after `activate(A)`. -/
def stC1cexA : WsState :=
  activateApply (restoreEnvironment stC1cex) "a" ConanEnv.buildEnv [("X", "1")]

/-- Intermediate state of the C1 counterexample after `activate(B)`. -/
def stC1cexB : WsState :=
  activateApply (restoreEnvironment stC1cexA) "b" ConanEnv.runEnv [("X", "2")]

/-- C1 counterexample: starting from an environment where X is set to the
empty string, the sequence activate(A); activate(B); restore() leaves X
unset rather than at its previous (empty-string) value, because the code
conflates empty values with absent ones when re-applying a snapshot. -/
theorem claim_C1_counterexample :
    activateEnvironment stC1cex "a" ConanEnv.buildEnv (some [("X", "1")]) =
      Except.ok stC1cexA ∧
    activateEnvironment stC1cexA "b" ConanEnv.runEnv (some [("X", "2")]) =
      Except.ok stC1cexB ∧
    stC1cex.processEnv "X" = some "" ∧
    (restoreEnvironment stC1cexB).processEnv "X" = none :=
  ⟨rfl, rfl, rfl, rfl⟩

/-- C1 amended: starting from the Inactive state (no persisted snapshot),
the sequence activate(A); activate(B); restore() leaves every variable
whose name occurs in A or in B and whose pre-activation value was not the
empty string at exactly the value it held immediately before activate(A);
a variable whose prior value was the empty string ends up unset instead,
since the code treats empty and absent values alike. -/
theorem claim_C1_restore_chain (st : WsState) (hB : st.backupEnv = none)
    (A B : List (String × String)) (c1 c2 : String) (k1 k2 : ConanEnv)
    (stA stB : WsState)
    (hA : activateEnvironment st c1 k1 (some A) = Except.ok stA)
    (hAB : activateEnvironment stA c2 k2 (some B) = Except.ok stB)
    (name : String)
    (hname : name ∈ A.map (fun p => p.1) ∨ name ∈ B.map (fun p => p.1))
    (hval : st.processEnv name ≠ some "") :
    (restoreEnvironment stB).processEnv name = st.processEnv name := by
  have hA2 : activateApply (restoreEnvironment st) c1 k1 A = stA := by
    simpa [activateEnvironment] using hA
  have hB2 : activateApply (restoreEnvironment stA) c2 k2 B = stB := by
    simpa [activateEnvironment] using hAB
  subst hA2
  subst hB2
  have h1 : (activateApply (restoreEnvironment st) c1 k1 A).backupEnv =
      some (A.map (fun p => (p.1, st.processEnv p.1))) := firstBackup st hB c1 k1 A
  have h1f : ∀ p ∈ A.map (fun p => (p.1, st.processEnv p.1)), p.2 = st.processEnv p.1 := by
    intro p hp
    rcases List.mem_map.mp hp with ⟨q, hq, rfl⟩
    rfl
  have h1k : (A.map (fun p => (p.1, st.processEnv p.1))).map (fun p => p.1) =
      A.map (fun p => p.1) := by
    rw [List.map_map]; rfl
  have h1out : ∀ n, n ∉ (A.map (fun p => (p.1, st.processEnv p.1))).map (fun p => p.1) →
      (activateApply (restoreEnvironment st) c1 k1 A).processEnv n = st.processEnv n := by
    intro n hn
    rw [h1k] at hn
    rw [congrFun (firstProcessEnv st hB c1 k1 A) n]
    apply envApply_not_mem
    rw [keys_coerce]
    exact hn
  have h2 : (activateApply (restoreEnvironment
        (activateApply (restoreEnvironment st) c1 k1 A)) c2 k2 B).backupEnv =
      some (B.map (fun p => (p.1, st.processEnv p.1))) :=
    secondBackup _ st.processEnv _ h1 h1f h1out c2 k2 B
  have h2f : ∀ p ∈ B.map (fun p => (p.1, st.processEnv p.1)), p.2 = st.processEnv p.1 := by
    intro p hp
    rcases List.mem_map.mp hp with ⟨q, hq, rfl⟩
    rfl
  have h2k : (B.map (fun p => (p.1, st.processEnv p.1))).map (fun p => p.1) =
      B.map (fun p => p.1) := by
    rw [List.map_map]; rfl
  rw [restore_processEnv_determined _ st.processEnv _ h2 h2f name, h2k]
  by_cases hmB : name ∈ B.map (fun p => p.1)
  · rw [if_pos hmB]
    exact normVal_eq_of_ne _ hval
  · rw [if_neg hmB]
    have hmA : name ∈ A.map (fun p => p.1) := hname.resolve_right hmB
    rw [congrFun (activateApply_processEnv _ c2 k2 B) name]
    rw [envApply_not_mem _ _ name (by rw [keys_coerce]; exact hmB)]
    rw [restore_processEnv_determined _ st.processEnv _ h1 h1f name, h1k, if_pos hmA]
    exact normVal_eq_of_ne _ hval

/-- Concrete initial state for the C1 witness. -/
def stC1w : WsState :=
  { processEnv := fun n => if n = "X" then some "x0" else none,
    envCollection := fun _ => none,
    backupEnv := none, activeEnv := none,
    dotEnv := none, updateDotEnv := false }

/-- State of the C1 witness after `activate(A)`. -/
def stC1wA : WsState :=
  activateApply (restoreEnvironment stC1w) "a" ConanEnv.buildEnv [("X", "1")]

/-- State of the C1 witness after `activate(B)`. -/
def stC1wB : WsState :=
  activateApply (restoreEnvironment stC1wA) "b" ConanEnv.runEnv [("X", "2"), ("Y", "3")]

/-- Witness for the amended C1 at a concrete chain of two overlapping
activations followed by a restore. -/
theorem claim_C1_restore_chain_witness :
    (restoreEnvironment stC1wB).processEnv "X" = stC1w.processEnv "X" :=
  claim_C1_restore_chain stC1w rfl [("X", "1")] [("X", "2"), ("Y", "3")] "a" "b"
    ConanEnv.buildEnv ConanEnv.runEnv stC1wA stC1wB rfl rfl "X"
    (Or.inl (by decide)) (by decide)
